import Mathlib

/-!
Shallow embedding of the `behavior-tree-js` library (src/bundle.js and the
unbundled builder source).  Components:

* `BehaviorTreeStatus` — the three-valued tick result.
* `JSError` — thrown values: `BehaviorTreeError` with a message, a JavaScript
  `TypeError` (from popping the empty builder stack), and arbitrary foreign
  errors thrown by user action functions, identified by a tag.
* the composite nodes `SequenceNode`, `SelectorNode`, `RepeatNode`,
  `UntilFailNode` — each `tick` walks the `NodeEnumerator` over the children.
  A child's behaviour during one parent tick is modelled by the
  `Except JSError BehaviorTreeStatus` it produces when ticked, so a parent
  tick is a function of the list of child results, the `keepState` flag and
  the enumerator position carried over from the previous tick.
* `ParallelNode` and `InverterNode`.
* `BehaviorTreeBuilder` — the fluent builder, as a pure state machine over a
  stack of open parent frames.
-/

namespace BehaviorTreeJs

/-- Status enum of bundle.js lines 4-10: the return type when invoking
behavior tree nodes. -/
inductive BehaviorTreeStatus where
  | Success
  | Failure
  | Running
deriving DecidableEq, Repr

/-- Values thrown by the library or by user code: `BehaviorTreeError msg`
(bundle.js line 12), a JavaScript `TypeError` (raised by `Stack.pop` on an
empty stack, bundle.js line 362), and foreign errors raised inside a child
tick, identified by an opaque tag. -/
inductive JSError where
  | behaviorTreeError (msg : String)
  | typeError
  | thrown (tag : Nat)
deriving DecidableEq, Repr

namespace Errors

/-- Error message of bundle.js line 17. -/
def NO_NODES : String := "Cannot create a behavior tree with zero nodes."

/-- Error message of bundle.js line 18. -/
def SPLICE_UNNESTED_TREE : String :=
  "Cannot splice an unnested sub-tree. There must be a parent-tree."

/-- Error message of bundle.js line 19. -/
def INVERTER_NO_CHILDREN : String := "InverterNode must have a child node!"

/-- Error message of bundle.js line 20 (the apostrophe is assembled from its
character code). -/
def INVERTER_MULTIPLE_CHILDREN : String :=
  "Can" ++ String.singleton (Char.ofNat 39) ++ "t add more than a single child to InverterNode!"

/-- Error message of bundle.js line 21. -/
def UNNESTED_ACTION_NODE : String :=
  "Can" ++ String.singleton (Char.ofNat 39) ++ "t create an unnested ActionNode. It must be a leaf node."

/-- Error message of bundle.js line 22. -/
def NO_RETURN_VALUE : String := "Node must return a BehaviorTreeStatus"

end Errors

deriving instance DecidableEq for Except

/-- Results the children of a composite produce when ticked during one parent
tick, in child order; `.error e` models the child throwing `e`. -/
abbrev ChildResults := List (Except JSError BehaviorTreeStatus)

/-- Enumerator index at which a composite's tick starts evaluating, after
`if (!this.enumerator || !this.keepState) { this.init(); }`: a missing
enumerator (`none`, before the first tick) or `keepState = false`
re-initializes the cursor to child 0, otherwise the cursor kept from the
previous tick is used. -/
def startIndex (keepState : Bool) (enum : Option Nat) : Nat :=
  match enum, keepState with
  | some j, true => j
  | _, _ => 0

/-- Do-while loop of `SequenceNode.tick` (bundle.js lines 314-324), evaluating
the children listed in `rest`, the current child having index `i`.  The `[]`
case is the `!this.enumerator.current` guard: a cursor past the end of the
children returns Running and leaves the cursor where it is.  On a child
Success, `hasNext` (`!!this.nodes[this.currentIndex + 1]`) decides between
advancing and the exhaustion exit `reset; return Success`; on Failure the
cursor is reset and Failure returned; on Running the cursor stays on the
running child; a thrown child error propagates. -/
def SequenceNode.tickFrom (i : Nat) : ChildResults → Except JSError (BehaviorTreeStatus × Nat)
  | [] => .ok (.Running, i)
  | r :: rest =>
    match r with
    | .error e => .error e
    | .ok .Failure => .ok (.Failure, 0)
    | .ok .Running => .ok (.Running, i)
    | .ok .Success =>
      match rest with
      | [] => .ok (.Success, 0)
      | r' :: rest' => SequenceNode.tickFrom (i + 1) (r' :: rest')

/-- One tick of a `SequenceNode` (bundle.js lines 307-325) over the child
results of this tick, returning the status and the enumerator position left
for the next tick. -/
def SequenceNode.tick (keepState : Bool) (results : ChildResults) (enum : Option Nat) :
    Except JSError (BehaviorTreeStatus × Option Nat) :=
  let i := startIndex keepState enum
  (SequenceNode.tickFrom i (results.drop i)).map (fun p => (p.1, some p.2))

/-- Do-while loop of `SelectorNode.tick` (bundle.js lines 185-195): a child
Success resets the cursor and returns Success, a child Running is returned
with the cursor kept on that child, a child Failure advances (or, with no
next child, resets the cursor and returns Failure); a thrown child error
propagates. -/
def SelectorNode.tickFrom (i : Nat) : ChildResults → Except JSError (BehaviorTreeStatus × Nat)
  | [] => .ok (.Running, i)
  | r :: rest =>
    match r with
    | .error e => .error e
    | .ok .Success => .ok (.Success, 0)
    | .ok .Running => .ok (.Running, i)
    | .ok .Failure =>
      match rest with
      | [] => .ok (.Failure, 0)
      | r' :: rest' => SelectorNode.tickFrom (i + 1) (r' :: rest')

/-- One tick of a `SelectorNode` (bundle.js lines 178-196). -/
def SelectorNode.tick (keepState : Bool) (results : ChildResults) (enum : Option Nat) :
    Except JSError (BehaviorTreeStatus × Option Nat) :=
  let i := startIndex keepState enum
  (SelectorNode.tickFrom i (results.drop i)).map (fun p => (p.1, some p.2))

/-- Do-while loop of `RepeatNode.tick` (bundle.js lines 228-238): a child
Success advances (or, with no next child, resets the cursor and returns
Running), a child Failure resets the cursor and returns Running, a child
Running is returned with the cursor kept on that child; a thrown child error
propagates. -/
def RepeatNode.tickFrom (i : Nat) : ChildResults → Except JSError (BehaviorTreeStatus × Nat)
  | [] => .ok (.Running, i)
  | r :: rest =>
    match r with
    | .error e => .error e
    | .ok .Failure => .ok (.Running, 0)
    | .ok .Running => .ok (.Running, i)
    | .ok .Success =>
      match rest with
      | [] => .ok (.Running, 0)
      | r' :: rest' => RepeatNode.tickFrom (i + 1) (r' :: rest')

/-- One tick of a `RepeatNode` (bundle.js lines 221-239). -/
def RepeatNode.tick (keepState : Bool) (results : ChildResults) (enum : Option Nat) :
    Except JSError (BehaviorTreeStatus × Option Nat) :=
  let i := startIndex keepState enum
  (RepeatNode.tickFrom i (results.drop i)).map (fun p => (p.1, some p.2))

/-- Do-while loop of `UntilFailNode.tick` (bundle.js lines 271-281): a child
Success advances (or, with no next child, resets the cursor and returns
Running), a child Failure resets the cursor and returns Failure, a child
Running is returned with the cursor kept on that child; a thrown child error
propagates. -/
def UntilFailNode.tickFrom (i : Nat) : ChildResults → Except JSError (BehaviorTreeStatus × Nat)
  | [] => .ok (.Running, i)
  | r :: rest =>
    match r with
    | .error e => .error e
    | .ok .Failure => .ok (.Failure, 0)
    | .ok .Running => .ok (.Running, i)
    | .ok .Success =>
      match rest with
      | [] => .ok (.Running, 0)
      | r' :: rest' => UntilFailNode.tickFrom (i + 1) (r' :: rest')

/-- One tick of an `UntilFailNode` (bundle.js lines 264-282). -/
def UntilFailNode.tick (keepState : Bool) (results : ChildResults) (enum : Option Nat) :
    Except JSError (BehaviorTreeStatus × Option Nat) :=
  let i := startIndex keepState enum
  (UntilFailNode.tickFrom i (results.drop i)).map (fun p => (p.1, some p.2))

/-- `ParallelNode.tickChildren` (bundle.js lines 110-117): a child tick is
wrapped in try/catch and any thrown error is translated into a Failure
vote. -/
def ParallelNode.tickChildren (r : Except JSError BehaviorTreeStatus) : BehaviorTreeStatus :=
  match r with
  | .ok s => s
  | .error _ => .Failure

/-- One tick of a `ParallelNode` (bundle.js lines 95-106): every child is
ticked (through `tickChildren`), the Success and Failure votes are counted by
filtering, and the thresholds are applied — success first, and only when the
threshold is positive. -/
def ParallelNode.tick (requiredToFail requiredToSucceed : Int) (children : ChildResults) :
    BehaviorTreeStatus :=
  let statuses := children.map ParallelNode.tickChildren
  let succeeded := (statuses.filter (fun x => x = BehaviorTreeStatus.Success)).length
  let failed := (statuses.filter (fun x => x = BehaviorTreeStatus.Failure)).length
  if requiredToSucceed > 0 ∧ requiredToSucceed ≤ (succeeded : Int) then .Success
  else if requiredToFail > 0 ∧ requiredToFail ≤ (failed : Int) then .Failure
  else .Running

/-- One tick of an `InverterNode` (bundle.js lines 55-67): with no child set
it throws `INVERTER_NO_CHILDREN`; otherwise the child's Failure becomes
Success, Success becomes Failure, Running passes through and a thrown child
error propagates. -/
def InverterNode.tick (childNode : Option (Except JSError BehaviorTreeStatus)) :
    Except JSError BehaviorTreeStatus :=
  match childNode with
  | none => .error (.behaviorTreeError Errors.INVERTER_NO_CHILDREN)
  | some r =>
    match r with
    | .error e => .error e
    | .ok .Failure => .ok .Success
    | .ok .Success => .ok .Failure
    | .ok .Running => .ok .Running

/-- A fully built behavior tree node, as produced by the constructors and the
builder.  Action functions are identified by an opaque tag. -/
inductive BTNode where
  | actionNode (name : String) (fn : Nat)
  | inverterNode (name : String) (childNode : Option BTNode)
  | parallelNode (name : String) (requiredToFail requiredToSucceed : Int)
      (children : List BTNode)
  | sequenceNode (name : String) (keepState : Bool) (children : List BTNode)
  | selectorNode (name : String) (keepState : Bool) (children : List BTNode)
  | repeatNode (name : String) (keepState : Bool) (children : List BTNode)
  | untilFailNode (name : String) (keepState : Bool) (children : List BTNode)

/-- Constructor `new SequenceNode(name, keepState = false)` (bundle.js line
294): a JavaScript default parameter applies when the argument is absent or
undefined, modelled by `Option.getD`; children start empty. -/
def SequenceNode.new (name : String) (keepState : Option Bool) : BTNode :=
  .sequenceNode name (keepState.getD false) []

/-- Constructor `new SelectorNode(name, keepState = false)` (bundle.js line
165). -/
def SelectorNode.new (name : String) (keepState : Option Bool) : BTNode :=
  .selectorNode name (keepState.getD false) []

/-- Constructor `new RepeatNode(name, keepState = false)` (bundle.js line
208). -/
def RepeatNode.new (name : String) (keepState : Option Bool) : BTNode :=
  .repeatNode name (keepState.getD false) []

/-- Constructor `new UntilFailNode(name, keepState = false)` (bundle.js line
251). -/
def UntilFailNode.new (name : String) (keepState : Option Bool) : BTNode :=
  .untilFailNode name (keepState.getD false) []

/-- The `keepState` property of a built node, when the node kind has one. -/
def BTNode.keepState : BTNode → Option Bool
  | .sequenceNode _ k _ => some k
  | .selectorNode _ k _ => some k
  | .repeatNode _ k _ => some k
  | .untilFailNode _ k _ => some k
  | _ => none

/-- An open parent node on the builder's `parentNodeStack`, holding the
children accumulated so far.  In the JavaScript source the node object itself
sits on the stack and is mutated through `addChild`; here the frame records
the same data and the finished node is assembled when the frame is popped
(`end()`).  Because the fluent API only ever adds children to the top of the
stack, a node pushed by `addParentNode` receives no further siblings in its
parent until it is popped, so attaching it to the parent at pop time yields
the same children, in the same order, as the source's attach-at-push. -/
inductive ParentFrame where
  | sequenceF (name : String) (keepState : Bool) (children : List BTNode)
  | selectorF (name : String) (keepState : Bool) (children : List BTNode)
  | repeatF (name : String) (keepState : Bool) (children : List BTNode)
  | untilFailF (name : String) (keepState : Bool) (children : List BTNode)
  | parallelF (name : String) (requiredToFail requiredToSucceed : Int)
      (children : List BTNode)
  | inverterF (name : String) (childNode : Option BTNode)

/-- `addChild` on the open frame: composites push onto their children array;
`InverterNode.addChild` (bundle.js lines 68-73) throws when a child is
already set. -/
def ParentFrame.addChild (f : ParentFrame) (c : BTNode) : Except JSError ParentFrame :=
  match f with
  | .sequenceF n k cs => .ok (.sequenceF n k (cs ++ [c]))
  | .selectorF n k cs => .ok (.selectorF n k (cs ++ [c]))
  | .repeatF n k cs => .ok (.repeatF n k (cs ++ [c]))
  | .untilFailF n k cs => .ok (.untilFailF n k (cs ++ [c]))
  | .parallelF n rtf rts cs => .ok (.parallelF n rtf rts (cs ++ [c]))
  | .inverterF n old =>
    match old with
    | some _ => .error (.behaviorTreeError Errors.INVERTER_MULTIPLE_CHILDREN)
    | none => .ok (.inverterF n (some c))

/-- The node an open frame has built up. -/
def ParentFrame.toNode : ParentFrame → BTNode
  | .sequenceF n k cs => .sequenceNode n k cs
  | .selectorF n k cs => .selectorNode n k cs
  | .repeatF n k cs => .repeatNode n k cs
  | .untilFailF n k cs => .untilFailNode n k cs
  | .parallelF n rtf rts cs => .parallelNode n rtf rts cs
  | .inverterF n c => .inverterNode n c

/-- `BehaviorTreeBuilder` state: `curNode` is the last node passed through
`end()`, and `parentNodeStack` the stack of open parent nodes (head is the
top). -/
structure BehaviorTreeBuilder where
  curNode : Option BTNode
  parentNodeStack : List ParentFrame

/-- A newly constructed builder: no current node, empty stack. -/
def BehaviorTreeBuilder.fresh : BehaviorTreeBuilder :=
  { curNode := none, parentNodeStack := [] }

/-- `BehaviorTreeBuilder.addParentNode` (bundle.js lines 503-509): push the
new open node onto the stack (its attachment to the enclosing frame is
performed when it is popped, see `ParentFrame`). -/
def BehaviorTreeBuilder.addParentNode (f : ParentFrame) (b : BehaviorTreeBuilder) :
    BehaviorTreeBuilder :=
  { b with parentNodeStack := f :: b.parentNodeStack }

/-- `BehaviorTreeBuilder.do` (bundle.js lines 387-394), named `doAction` here
because `do` is reserved in Lean: with an empty stack it throws
`UNNESTED_ACTION_NODE`, otherwise the new `ActionNode` is added to the node
on top of the stack. -/
def BehaviorTreeBuilder.doAction (name : String) (fn : Nat) (b : BehaviorTreeBuilder) :
    Except JSError BehaviorTreeBuilder :=
  match b.parentNodeStack with
  | [] => .error (.behaviorTreeError Errors.UNNESTED_ACTION_NODE)
  | top :: rest =>
    match top.addChild (.actionNode name fn) with
    | .error e => .error e
    | .ok top' => .ok { b with parentNodeStack := top' :: rest }

/-- `BehaviorTreeBuilder.sequence(name, keepState = true)` (bundle.js lines
421-423). -/
def BehaviorTreeBuilder.sequence (name : String) (keepState : Option Bool)
    (b : BehaviorTreeBuilder) : BehaviorTreeBuilder :=
  b.addParentNode (.sequenceF name (keepState.getD true) [])

/-- `BehaviorTreeBuilder.selector(name, keepState = true)` (bundle.js lines
442-444). -/
def BehaviorTreeBuilder.selector (name : String) (keepState : Option Bool)
    (b : BehaviorTreeBuilder) : BehaviorTreeBuilder :=
  b.addParentNode (.selectorF name (keepState.getD true) [])

/-- `selector(name, keepState)` of the unbundled builder source
(BehaviorTreeBuilder.js): unlike the bundled version it declares no default,
so an omitted argument reaches `new SelectorNode(name, undefined)` and the
constructor's own default `false` applies. -/
def BehaviorTreeBuilder.selectorSrc (name : String) (keepState : Option Bool)
    (b : BehaviorTreeBuilder) : BehaviorTreeBuilder :=
  b.addParentNode (.selectorF name (keepState.getD false) [])

/-- `BehaviorTreeBuilder.repeat(name, keepState = true)` (bundle.js lines
452-454). -/
def BehaviorTreeBuilder.repeatB (name : String) (keepState : Option Bool)
    (b : BehaviorTreeBuilder) : BehaviorTreeBuilder :=
  b.addParentNode (.repeatF name (keepState.getD true) [])

/-- `BehaviorTreeBuilder.untilFail(name, keepState = true)` (bundle.js lines
462-464). -/
def BehaviorTreeBuilder.untilFail (name : String) (keepState : Option Bool)
    (b : BehaviorTreeBuilder) : BehaviorTreeBuilder :=
  b.addParentNode (.untilFailF name (keepState.getD true) [])

/-- `BehaviorTreeBuilder.parallel` (bundle.js lines 432-434). -/
def BehaviorTreeBuilder.parallel (name : String) (requiredToFail requiredToSucceed : Int)
    (b : BehaviorTreeBuilder) : BehaviorTreeBuilder :=
  b.addParentNode (.parallelF name requiredToFail requiredToSucceed [])

/-- `BehaviorTreeBuilder.inverter` (bundle.js lines 411-413). -/
def BehaviorTreeBuilder.inverter (name : String) (b : BehaviorTreeBuilder) :
    BehaviorTreeBuilder :=
  b.addParentNode (.inverterF name none)

/-- `BehaviorTreeBuilder.splice` (bundle.js lines 471-477). -/
def BehaviorTreeBuilder.splice (subTree : BTNode) (b : BehaviorTreeBuilder) :
    Except JSError BehaviorTreeBuilder :=
  match b.parentNodeStack with
  | [] => .error (.behaviorTreeError Errors.SPLICE_UNNESTED_TREE)
  | top :: rest =>
    match top.addChild subTree with
    | .error e => .error e
    | .ok top' => .ok { b with parentNodeStack := top' :: rest }

/-- `BehaviorTreeBuilder.end` (bundle.js lines 493-496): `curNode` becomes
the popped node.  Popping the empty stack dereferences `undefined`
(bundle.js line 362), a `TypeError`.  The popped node is attached to the new
top frame, completing the attachment deferred at `addParentNode`. -/
def BehaviorTreeBuilder.endB (b : BehaviorTreeBuilder) : Except JSError BehaviorTreeBuilder :=
  match b.parentNodeStack with
  | [] => .error .typeError
  | top :: rest =>
    let node := top.toNode
    match rest with
    | [] => .ok { curNode := some node, parentNodeStack := [] }
    | p :: rs =>
      match p.addChild node with
      | .error e => .error e
      | .ok p' => .ok { curNode := some node, parentNodeStack := p' :: rs }

/-- `BehaviorTreeBuilder.build` (bundle.js lines 482-487): throws `NO_NODES`
when no node was ever passed through `end()`, otherwise returns it. -/
def BehaviorTreeBuilder.build (b : BehaviorTreeBuilder) : Except JSError BTNode :=
  match b.curNode with
  | none => .error (.behaviorTreeError Errors.NO_NODES)
  | some n => .ok n

/-! Helper lemmas about the enumerator start index and the tick loops. -/

theorem startIndex_none (k : Bool) : startIndex k none = 0 := by
  cases k <;> rfl

theorem startIndex_false (enum : Option Nat) : startIndex false enum = 0 := by
  cases enum <;> rfl

theorem startIndex_some_true (j : Nat) : startIndex true (some j) = j := rfl

theorem exists_cons_append (l : ChildResults) (r : Except JSError BehaviorTreeStatus)
    (rest : ChildResults) : ∃ a t, l ++ r :: rest = a :: t := by
  cases l with
  | nil => exact ⟨_, _, rfl⟩
  | cons q qs => exact ⟨_, _, rfl⟩

theorem seq_tickFrom_allSuccess :
    ∀ (rest : ChildResults) (i : Nat), (∀ x ∈ rest, x = .ok .Success) →
      SequenceNode.tickFrom i (.ok .Success :: rest) = .ok (.Success, 0) := by
  intro rest
  induction rest with
  | nil => intro i _; rfl
  | cons r rest' ih =>
    intro i h
    have hr : r = .ok .Success := h r (List.mem_cons_self _ _)
    subst hr
    have step : SequenceNode.tickFrom i (.ok .Success :: .ok .Success :: rest')
        = SequenceNode.tickFrom (i + 1) (.ok .Success :: rest') := rfl
    rw [step]
    exact ih (i + 1) (fun x hx => h x (List.mem_cons_of_mem _ hx))

theorem seq_tickFrom_prefix_failure :
    ∀ (pre rest : ChildResults) (i : Nat), (∀ x ∈ pre, x = .ok .Success) →
      SequenceNode.tickFrom i (pre ++ .ok .Failure :: rest) = .ok (.Failure, 0) := by
  intro pre
  induction pre with
  | nil => intro rest i _; rfl
  | cons p pre' ih =>
    intro rest i h
    have hp : p = .ok .Success := h p (List.mem_cons_self _ _)
    subst hp
    obtain ⟨a, t, heq⟩ := exists_cons_append pre' (.ok .Failure) rest
    calc SequenceNode.tickFrom i ((.ok .Success :: pre') ++ .ok .Failure :: rest)
        = SequenceNode.tickFrom i (.ok .Success :: a :: t) := by
          rw [List.cons_append, heq]
      _ = SequenceNode.tickFrom (i + 1) (a :: t) := rfl
      _ = SequenceNode.tickFrom (i + 1) (pre' ++ .ok .Failure :: rest) := by rw [heq]
      _ = .ok (.Failure, 0) := ih rest (i + 1) (fun x hx => h x (List.mem_cons_of_mem _ hx))

theorem seq_tickFrom_prefix_running :
    ∀ (pre rest : ChildResults) (i : Nat), (∀ x ∈ pre, x = .ok .Success) →
      SequenceNode.tickFrom i (pre ++ .ok .Running :: rest) = .ok (.Running, i + pre.length) := by
  intro pre
  induction pre with
  | nil => intro rest i _; rfl
  | cons p pre' ih =>
    intro rest i h
    have hp : p = .ok .Success := h p (List.mem_cons_self _ _)
    subst hp
    obtain ⟨a, t, heq⟩ := exists_cons_append pre' (.ok .Running) rest
    have harith : (i + 1) + pre'.length = i + (List.length (.ok .Success :: pre' : ChildResults)) := by
      rw [List.length_cons]; omega
    calc SequenceNode.tickFrom i ((.ok .Success :: pre') ++ .ok .Running :: rest)
        = SequenceNode.tickFrom i (.ok .Success :: a :: t) := by
          rw [List.cons_append, heq]
      _ = SequenceNode.tickFrom (i + 1) (a :: t) := rfl
      _ = SequenceNode.tickFrom (i + 1) (pre' ++ .ok .Running :: rest) := by rw [heq]
      _ = .ok (.Running, (i + 1) + pre'.length) :=
          ih rest (i + 1) (fun x hx => h x (List.mem_cons_of_mem _ hx))
      _ = .ok (.Running, i + List.length (.ok .Success :: pre' : ChildResults)) := by
          rw [harith]

theorem seq_tickFrom_prefix_error :
    ∀ (pre rest : ChildResults) (e : JSError) (i : Nat), (∀ x ∈ pre, x = .ok .Success) →
      SequenceNode.tickFrom i (pre ++ .error e :: rest) = .error e := by
  intro pre
  induction pre with
  | nil => intro rest e i _; rfl
  | cons p pre' ih =>
    intro rest e i h
    have hp : p = .ok .Success := h p (List.mem_cons_self _ _)
    subst hp
    obtain ⟨a, t, heq⟩ := exists_cons_append pre' (.error e) rest
    calc SequenceNode.tickFrom i ((.ok .Success :: pre') ++ .error e :: rest)
        = SequenceNode.tickFrom i (.ok .Success :: a :: t) := by
          rw [List.cons_append, heq]
      _ = SequenceNode.tickFrom (i + 1) (a :: t) := rfl
      _ = SequenceNode.tickFrom (i + 1) (pre' ++ .error e :: rest) := by rw [heq]
      _ = .error e := ih rest e (i + 1) (fun x hx => h x (List.mem_cons_of_mem _ hx))

theorem sel_tickFrom_allFailure :
    ∀ (rest : ChildResults) (i : Nat), (∀ x ∈ rest, x = .ok .Failure) →
      SelectorNode.tickFrom i (.ok .Failure :: rest) = .ok (.Failure, 0) := by
  intro rest
  induction rest with
  | nil => intro i _; rfl
  | cons r rest' ih =>
    intro i h
    have hr : r = .ok .Failure := h r (List.mem_cons_self _ _)
    subst hr
    have step : SelectorNode.tickFrom i (.ok .Failure :: .ok .Failure :: rest')
        = SelectorNode.tickFrom (i + 1) (.ok .Failure :: rest') := rfl
    rw [step]
    exact ih (i + 1) (fun x hx => h x (List.mem_cons_of_mem _ hx))

theorem sel_tickFrom_prefix_success :
    ∀ (pre rest : ChildResults) (i : Nat), (∀ x ∈ pre, x = .ok .Failure) →
      SelectorNode.tickFrom i (pre ++ .ok .Success :: rest) = .ok (.Success, 0) := by
  intro pre
  induction pre with
  | nil => intro rest i _; rfl
  | cons p pre' ih =>
    intro rest i h
    have hp : p = .ok .Failure := h p (List.mem_cons_self _ _)
    subst hp
    obtain ⟨a, t, heq⟩ := exists_cons_append pre' (.ok .Success) rest
    calc SelectorNode.tickFrom i ((.ok .Failure :: pre') ++ .ok .Success :: rest)
        = SelectorNode.tickFrom i (.ok .Failure :: a :: t) := by
          rw [List.cons_append, heq]
      _ = SelectorNode.tickFrom (i + 1) (a :: t) := rfl
      _ = SelectorNode.tickFrom (i + 1) (pre' ++ .ok .Success :: rest) := by rw [heq]
      _ = .ok (.Success, 0) := ih rest (i + 1) (fun x hx => h x (List.mem_cons_of_mem _ hx))

theorem sel_tickFrom_prefix_running :
    ∀ (pre rest : ChildResults) (i : Nat), (∀ x ∈ pre, x = .ok .Failure) →
      SelectorNode.tickFrom i (pre ++ .ok .Running :: rest) = .ok (.Running, i + pre.length) := by
  intro pre
  induction pre with
  | nil => intro rest i _; rfl
  | cons p pre' ih =>
    intro rest i h
    have hp : p = .ok .Failure := h p (List.mem_cons_self _ _)
    subst hp
    obtain ⟨a, t, heq⟩ := exists_cons_append pre' (.ok .Running) rest
    have harith : (i + 1) + pre'.length = i + (List.length (.ok .Failure :: pre' : ChildResults)) := by
      rw [List.length_cons]; omega
    calc SelectorNode.tickFrom i ((.ok .Failure :: pre') ++ .ok .Running :: rest)
        = SelectorNode.tickFrom i (.ok .Failure :: a :: t) := by
          rw [List.cons_append, heq]
      _ = SelectorNode.tickFrom (i + 1) (a :: t) := rfl
      _ = SelectorNode.tickFrom (i + 1) (pre' ++ .ok .Running :: rest) := by rw [heq]
      _ = .ok (.Running, (i + 1) + pre'.length) :=
          ih rest (i + 1) (fun x hx => h x (List.mem_cons_of_mem _ hx))
      _ = .ok (.Running, i + List.length (.ok .Failure :: pre' : ChildResults)) := by
          rw [harith]

theorem sel_tickFrom_prefix_error :
    ∀ (pre rest : ChildResults) (e : JSError) (i : Nat), (∀ x ∈ pre, x = .ok .Failure) →
      SelectorNode.tickFrom i (pre ++ .error e :: rest) = .error e := by
  intro pre
  induction pre with
  | nil => intro rest e i _; rfl
  | cons p pre' ih =>
    intro rest e i h
    have hp : p = .ok .Failure := h p (List.mem_cons_self _ _)
    subst hp
    obtain ⟨a, t, heq⟩ := exists_cons_append pre' (.error e) rest
    calc SelectorNode.tickFrom i ((.ok .Failure :: pre') ++ .error e :: rest)
        = SelectorNode.tickFrom i (.ok .Failure :: a :: t) := by
          rw [List.cons_append, heq]
      _ = SelectorNode.tickFrom (i + 1) (a :: t) := rfl
      _ = SelectorNode.tickFrom (i + 1) (pre' ++ .error e :: rest) := by rw [heq]
      _ = .error e := ih rest e (i + 1) (fun x hx => h x (List.mem_cons_of_mem _ hx))

theorem rep_tickFrom_allSuccess :
    ∀ (rest : ChildResults) (i : Nat), (∀ x ∈ rest, x = .ok .Success) →
      RepeatNode.tickFrom i (.ok .Success :: rest) = .ok (.Running, 0) := by
  intro rest
  induction rest with
  | nil => intro i _; rfl
  | cons r rest' ih =>
    intro i h
    have hr : r = .ok .Success := h r (List.mem_cons_self _ _)
    subst hr
    have step : RepeatNode.tickFrom i (.ok .Success :: .ok .Success :: rest')
        = RepeatNode.tickFrom (i + 1) (.ok .Success :: rest') := rfl
    rw [step]
    exact ih (i + 1) (fun x hx => h x (List.mem_cons_of_mem _ hx))

theorem rep_tickFrom_prefix_failure :
    ∀ (pre rest : ChildResults) (i : Nat), (∀ x ∈ pre, x = .ok .Success) →
      RepeatNode.tickFrom i (pre ++ .ok .Failure :: rest) = .ok (.Running, 0) := by
  intro pre
  induction pre with
  | nil => intro rest i _; rfl
  | cons p pre' ih =>
    intro rest i h
    have hp : p = .ok .Success := h p (List.mem_cons_self _ _)
    subst hp
    obtain ⟨a, t, heq⟩ := exists_cons_append pre' (.ok .Failure) rest
    calc RepeatNode.tickFrom i ((.ok .Success :: pre') ++ .ok .Failure :: rest)
        = RepeatNode.tickFrom i (.ok .Success :: a :: t) := by
          rw [List.cons_append, heq]
      _ = RepeatNode.tickFrom (i + 1) (a :: t) := rfl
      _ = RepeatNode.tickFrom (i + 1) (pre' ++ .ok .Failure :: rest) := by rw [heq]
      _ = .ok (.Running, 0) := ih rest (i + 1) (fun x hx => h x (List.mem_cons_of_mem _ hx))

theorem rep_tickFrom_prefix_running :
    ∀ (pre rest : ChildResults) (i : Nat), (∀ x ∈ pre, x = .ok .Success) →
      RepeatNode.tickFrom i (pre ++ .ok .Running :: rest) = .ok (.Running, i + pre.length) := by
  intro pre
  induction pre with
  | nil => intro rest i _; rfl
  | cons p pre' ih =>
    intro rest i h
    have hp : p = .ok .Success := h p (List.mem_cons_self _ _)
    subst hp
    obtain ⟨a, t, heq⟩ := exists_cons_append pre' (.ok .Running) rest
    have harith : (i + 1) + pre'.length = i + (List.length (.ok .Success :: pre' : ChildResults)) := by
      rw [List.length_cons]; omega
    calc RepeatNode.tickFrom i ((.ok .Success :: pre') ++ .ok .Running :: rest)
        = RepeatNode.tickFrom i (.ok .Success :: a :: t) := by
          rw [List.cons_append, heq]
      _ = RepeatNode.tickFrom (i + 1) (a :: t) := rfl
      _ = RepeatNode.tickFrom (i + 1) (pre' ++ .ok .Running :: rest) := by rw [heq]
      _ = .ok (.Running, (i + 1) + pre'.length) :=
          ih rest (i + 1) (fun x hx => h x (List.mem_cons_of_mem _ hx))
      _ = .ok (.Running, i + List.length (.ok .Success :: pre' : ChildResults)) := by
          rw [harith]

theorem rep_tickFrom_prefix_error :
    ∀ (pre rest : ChildResults) (e : JSError) (i : Nat), (∀ x ∈ pre, x = .ok .Success) →
      RepeatNode.tickFrom i (pre ++ .error e :: rest) = .error e := by
  intro pre
  induction pre with
  | nil => intro rest e i _; rfl
  | cons p pre' ih =>
    intro rest e i h
    have hp : p = .ok .Success := h p (List.mem_cons_self _ _)
    subst hp
    obtain ⟨a, t, heq⟩ := exists_cons_append pre' (.error e) rest
    calc RepeatNode.tickFrom i ((.ok .Success :: pre') ++ .error e :: rest)
        = RepeatNode.tickFrom i (.ok .Success :: a :: t) := by
          rw [List.cons_append, heq]
      _ = RepeatNode.tickFrom (i + 1) (a :: t) := rfl
      _ = RepeatNode.tickFrom (i + 1) (pre' ++ .error e :: rest) := by rw [heq]
      _ = .error e := ih rest e (i + 1) (fun x hx => h x (List.mem_cons_of_mem _ hx))

theorem uf_tickFrom_allSuccess :
    ∀ (rest : ChildResults) (i : Nat), (∀ x ∈ rest, x = .ok .Success) →
      UntilFailNode.tickFrom i (.ok .Success :: rest) = .ok (.Running, 0) := by
  intro rest
  induction rest with
  | nil => intro i _; rfl
  | cons r rest' ih =>
    intro i h
    have hr : r = .ok .Success := h r (List.mem_cons_self _ _)
    subst hr
    have step : UntilFailNode.tickFrom i (.ok .Success :: .ok .Success :: rest')
        = UntilFailNode.tickFrom (i + 1) (.ok .Success :: rest') := rfl
    rw [step]
    exact ih (i + 1) (fun x hx => h x (List.mem_cons_of_mem _ hx))

theorem uf_tickFrom_prefix_failure :
    ∀ (pre rest : ChildResults) (i : Nat), (∀ x ∈ pre, x = .ok .Success) →
      UntilFailNode.tickFrom i (pre ++ .ok .Failure :: rest) = .ok (.Failure, 0) := by
  intro pre
  induction pre with
  | nil => intro rest i _; rfl
  | cons p pre' ih =>
    intro rest i h
    have hp : p = .ok .Success := h p (List.mem_cons_self _ _)
    subst hp
    obtain ⟨a, t, heq⟩ := exists_cons_append pre' (.ok .Failure) rest
    calc UntilFailNode.tickFrom i ((.ok .Success :: pre') ++ .ok .Failure :: rest)
        = UntilFailNode.tickFrom i (.ok .Success :: a :: t) := by
          rw [List.cons_append, heq]
      _ = UntilFailNode.tickFrom (i + 1) (a :: t) := rfl
      _ = UntilFailNode.tickFrom (i + 1) (pre' ++ .ok .Failure :: rest) := by rw [heq]
      _ = .ok (.Failure, 0) := ih rest (i + 1) (fun x hx => h x (List.mem_cons_of_mem _ hx))

theorem uf_tickFrom_prefix_running :
    ∀ (pre rest : ChildResults) (i : Nat), (∀ x ∈ pre, x = .ok .Success) →
      UntilFailNode.tickFrom i (pre ++ .ok .Running :: rest) = .ok (.Running, i + pre.length) := by
  intro pre
  induction pre with
  | nil => intro rest i _; rfl
  | cons p pre' ih =>
    intro rest i h
    have hp : p = .ok .Success := h p (List.mem_cons_self _ _)
    subst hp
    obtain ⟨a, t, heq⟩ := exists_cons_append pre' (.ok .Running) rest
    have harith : (i + 1) + pre'.length = i + (List.length (.ok .Success :: pre' : ChildResults)) := by
      rw [List.length_cons]; omega
    calc UntilFailNode.tickFrom i ((.ok .Success :: pre') ++ .ok .Running :: rest)
        = UntilFailNode.tickFrom i (.ok .Success :: a :: t) := by
          rw [List.cons_append, heq]
      _ = UntilFailNode.tickFrom (i + 1) (a :: t) := rfl
      _ = UntilFailNode.tickFrom (i + 1) (pre' ++ .ok .Running :: rest) := by rw [heq]
      _ = .ok (.Running, (i + 1) + pre'.length) :=
          ih rest (i + 1) (fun x hx => h x (List.mem_cons_of_mem _ hx))
      _ = .ok (.Running, i + List.length (.ok .Success :: pre' : ChildResults)) := by
          rw [harith]

theorem uf_tickFrom_prefix_error :
    ∀ (pre rest : ChildResults) (e : JSError) (i : Nat), (∀ x ∈ pre, x = .ok .Success) →
      UntilFailNode.tickFrom i (pre ++ .error e :: rest) = .error e := by
  intro pre
  induction pre with
  | nil => intro rest e i _; rfl
  | cons p pre' ih =>
    intro rest e i h
    have hp : p = .ok .Success := h p (List.mem_cons_self _ _)
    subst hp
    obtain ⟨a, t, heq⟩ := exists_cons_append pre' (.error e) rest
    calc UntilFailNode.tickFrom i ((.ok .Success :: pre') ++ .error e :: rest)
        = UntilFailNode.tickFrom i (.ok .Success :: a :: t) := by
          rw [List.cons_append, heq]
      _ = UntilFailNode.tickFrom (i + 1) (a :: t) := rfl
      _ = UntilFailNode.tickFrom (i + 1) (pre' ++ .error e :: rest) := by rw [heq]
      _ = .error e := ih rest e (i + 1) (fun x hx => h x (List.mem_cons_of_mem _ hx))

theorem rep_tickFrom_running :
    ∀ (l : ChildResults) (i : Nat) (s : BehaviorTreeStatus) (j : Nat),
      RepeatNode.tickFrom i l = .ok (s, j) → s = .Running := by
  intro l
  induction l with
  | nil =>
    intro i s j h
    rw [show RepeatNode.tickFrom i [] = .ok (.Running, i) from rfl] at h
    injection h with h1
    injection h1 with hs hj
    exact hs.symm
  | cons r rest ih =>
    intro i s j h
    match r with
    | .error e =>
      rw [show RepeatNode.tickFrom i (.error e :: rest) = .error e from rfl] at h
      exact absurd h (by simp)
    | .ok .Failure =>
      rw [show RepeatNode.tickFrom i (.ok .Failure :: rest) = .ok (.Running, 0) from rfl] at h
      injection h with h1
      injection h1 with hs hj
      exact hs.symm
    | .ok .Running =>
      rw [show RepeatNode.tickFrom i (.ok .Running :: rest) = .ok (.Running, i) from rfl] at h
      injection h with h1
      injection h1 with hs hj
      exact hs.symm
    | .ok .Success =>
      match rest with
      | [] =>
        rw [show RepeatNode.tickFrom i [.ok .Success] = .ok (.Running, 0) from rfl] at h
        injection h with h1
        injection h1 with hs hj
        exact hs.symm
      | r' :: rest' =>
        rw [show RepeatNode.tickFrom i (.ok .Success :: r' :: rest')
            = RepeatNode.tickFrom (i + 1) (r' :: rest') from rfl] at h
        exact ih (i + 1) s j h

theorem rep_tickFrom_noError :
    ∀ (l : ChildResults) (i : Nat), (∀ x ∈ l, ∃ s, x = .ok s) →
      ∃ j, RepeatNode.tickFrom i l = .ok (.Running, j) := by
  intro l
  induction l with
  | nil => intro i _; exact ⟨i, rfl⟩
  | cons r rest ih =>
    intro i h
    obtain ⟨s, hs⟩ := h r (List.mem_cons_self _ _)
    subst hs
    match s with
    | .Failure => exact ⟨0, rfl⟩
    | .Running => exact ⟨i, rfl⟩
    | .Success =>
      match rest with
      | [] => exact ⟨0, rfl⟩
      | r' :: rest' =>
        obtain ⟨j, hj⟩ := ih (i + 1) (fun x hx => h x (List.mem_cons_of_mem _ hx))
        exact ⟨j, by
          rw [show RepeatNode.tickFrom i (.ok .Success :: r' :: rest')
              = RepeatNode.tickFrom (i + 1) (r' :: rest') from rfl]
          exact hj⟩

/-! Tick unfolding: the cursor a tick actually starts from. -/

theorem seq_tick_none (k : Bool) (results : ChildResults) :
    SequenceNode.tick k results none
      = (SequenceNode.tickFrom 0 results).map (fun p => (p.1, some p.2)) := by
  cases k <;> rfl

theorem seq_tick_false (results : ChildResults) (enum : Option Nat) :
    SequenceNode.tick false results enum
      = (SequenceNode.tickFrom 0 results).map (fun p => (p.1, some p.2)) := by
  cases enum <;> rfl

theorem seq_tick_some_true (results : ChildResults) (j : Nat) :
    SequenceNode.tick true results (some j)
      = (SequenceNode.tickFrom j (results.drop j)).map (fun p => (p.1, some p.2)) := rfl

theorem sel_tick_none (k : Bool) (results : ChildResults) :
    SelectorNode.tick k results none
      = (SelectorNode.tickFrom 0 results).map (fun p => (p.1, some p.2)) := by
  cases k <;> rfl

theorem sel_tick_false (results : ChildResults) (enum : Option Nat) :
    SelectorNode.tick false results enum
      = (SelectorNode.tickFrom 0 results).map (fun p => (p.1, some p.2)) := by
  cases enum <;> rfl

theorem sel_tick_some_true (results : ChildResults) (j : Nat) :
    SelectorNode.tick true results (some j)
      = (SelectorNode.tickFrom j (results.drop j)).map (fun p => (p.1, some p.2)) := rfl

theorem rep_tick_none (k : Bool) (results : ChildResults) :
    RepeatNode.tick k results none
      = (RepeatNode.tickFrom 0 results).map (fun p => (p.1, some p.2)) := by
  cases k <;> rfl

theorem rep_tick_false (results : ChildResults) (enum : Option Nat) :
    RepeatNode.tick false results enum
      = (RepeatNode.tickFrom 0 results).map (fun p => (p.1, some p.2)) := by
  cases enum <;> rfl

theorem rep_tick_some_true (results : ChildResults) (j : Nat) :
    RepeatNode.tick true results (some j)
      = (RepeatNode.tickFrom j (results.drop j)).map (fun p => (p.1, some p.2)) := rfl

theorem uf_tick_none (k : Bool) (results : ChildResults) :
    UntilFailNode.tick k results none
      = (UntilFailNode.tickFrom 0 results).map (fun p => (p.1, some p.2)) := by
  cases k <;> rfl

theorem uf_tick_false (results : ChildResults) (enum : Option Nat) :
    UntilFailNode.tick false results enum
      = (UntilFailNode.tickFrom 0 results).map (fun p => (p.1, some p.2)) := by
  cases enum <;> rfl

theorem uf_tick_some_true (results : ChildResults) (j : Nat) :
    UntilFailNode.tick true results (some j)
      = (UntilFailNode.tickFrom j (results.drop j)).map (fun p => (p.1, some p.2)) := rfl

theorem seq_tick_nil (k : Bool) (enum : Option Nat) :
    SequenceNode.tick k [] enum = .ok (.Running, some (startIndex k enum)) := by
  cases k <;> cases enum <;>
    simp [SequenceNode.tick, startIndex, List.drop_nil, SequenceNode.tickFrom, Except.map]

theorem sel_tick_nil (k : Bool) (enum : Option Nat) :
    SelectorNode.tick k [] enum = .ok (.Running, some (startIndex k enum)) := by
  cases k <;> cases enum <;>
    simp [SelectorNode.tick, startIndex, List.drop_nil, SelectorNode.tickFrom, Except.map]

theorem rep_tick_nil (k : Bool) (enum : Option Nat) :
    RepeatNode.tick k [] enum = .ok (.Running, some (startIndex k enum)) := by
  cases k <;> cases enum <;>
    simp [RepeatNode.tick, startIndex, List.drop_nil, RepeatNode.tickFrom, Except.map]

theorem uf_tick_nil (k : Bool) (enum : Option Nat) :
    UntilFailNode.tick k [] enum = .ok (.Running, some (startIndex k enum)) := by
  cases k <;> cases enum <;>
    simp [UntilFailNode.tick, startIndex, List.drop_nil, UntilFailNode.tickFrom, Except.map]

theorem listCount_filter (l : List BehaviorTreeStatus) (a : BehaviorTreeStatus) :
    (l.filter (fun x => x = a)).length = l.count a := by
  induction l with
  | nil => rfl
  | cons b l ih =>
    by_cases hb : b = a
    · subst hb; simp [List.filter_cons, List.count_cons, ih]
    · simp [List.filter_cons, List.count_cons, hb, ih]

/-! Claim theorems. -/

/-- Claim C1: for every sequential composite (Sequence, Selector, Repeat,
UntilFail), when a tick ends because the current child returned Running, the
cursor is left pointing at that same child with no reset (conjuncts 1-4, for
a loop entered at any index `i` after a prefix of continue-statuses); with
`keepState = true` the next tick re-enters that same child, not child 0
(conjuncts 5-8: a tick resumed at cursor `pre.length` evaluates exactly the
children from that index on); with `keepState = false` every tick
reinitializes the cursor to the first child before evaluating (conjuncts
9-12). -/
theorem C1_running_cursor_resumption :
    (∀ (pre rest : ChildResults) (i : Nat), (∀ x ∈ pre, x = .ok .Success) →
      SequenceNode.tickFrom i (pre ++ .ok .Running :: rest) = .ok (.Running, i + pre.length)) ∧
    (∀ (pre rest : ChildResults) (i : Nat), (∀ x ∈ pre, x = .ok .Failure) →
      SelectorNode.tickFrom i (pre ++ .ok .Running :: rest) = .ok (.Running, i + pre.length)) ∧
    (∀ (pre rest : ChildResults) (i : Nat), (∀ x ∈ pre, x = .ok .Success) →
      RepeatNode.tickFrom i (pre ++ .ok .Running :: rest) = .ok (.Running, i + pre.length)) ∧
    (∀ (pre rest : ChildResults) (i : Nat), (∀ x ∈ pre, x = .ok .Success) →
      UntilFailNode.tickFrom i (pre ++ .ok .Running :: rest) = .ok (.Running, i + pre.length)) ∧
    (∀ (pre rest : ChildResults),
      SequenceNode.tick true (pre ++ rest) (some pre.length)
        = (SequenceNode.tickFrom pre.length rest).map (fun p => (p.1, some p.2))) ∧
    (∀ (pre rest : ChildResults),
      SelectorNode.tick true (pre ++ rest) (some pre.length)
        = (SelectorNode.tickFrom pre.length rest).map (fun p => (p.1, some p.2))) ∧
    (∀ (pre rest : ChildResults),
      RepeatNode.tick true (pre ++ rest) (some pre.length)
        = (RepeatNode.tickFrom pre.length rest).map (fun p => (p.1, some p.2))) ∧
    (∀ (pre rest : ChildResults),
      UntilFailNode.tick true (pre ++ rest) (some pre.length)
        = (UntilFailNode.tickFrom pre.length rest).map (fun p => (p.1, some p.2))) ∧
    (∀ (results : ChildResults) (enum : Option Nat),
      SequenceNode.tick false results enum
        = (SequenceNode.tickFrom 0 results).map (fun p => (p.1, some p.2))) ∧
    (∀ (results : ChildResults) (enum : Option Nat),
      SelectorNode.tick false results enum
        = (SelectorNode.tickFrom 0 results).map (fun p => (p.1, some p.2))) ∧
    (∀ (results : ChildResults) (enum : Option Nat),
      RepeatNode.tick false results enum
        = (RepeatNode.tickFrom 0 results).map (fun p => (p.1, some p.2))) ∧
    (∀ (results : ChildResults) (enum : Option Nat),
      UntilFailNode.tick false results enum
        = (UntilFailNode.tickFrom 0 results).map (fun p => (p.1, some p.2))) := by
  refine ⟨seq_tickFrom_prefix_running, sel_tickFrom_prefix_running,
    rep_tickFrom_prefix_running, uf_tickFrom_prefix_running,
    ?_, ?_, ?_, ?_,
    seq_tick_false, sel_tick_false,
    rep_tick_false, uf_tick_false⟩
  · intro pre rest
    rw [seq_tick_some_true, List.drop_left]
  · intro pre rest
    rw [sel_tick_some_true, List.drop_left]
  · intro pre rest
    rw [rep_tick_some_true, List.drop_left]
  · intro pre rest
    rw [uf_tick_some_true, List.drop_left]

/-- Witness for C1 at concrete inputs: a Running child after a prefix of
continue-statuses leaves the cursor on that child. -/
theorem C1_witness :
    SequenceNode.tickFrom 0 [Except.ok BehaviorTreeStatus.Success, .ok .Running]
      = .ok (.Running, 1) ∧
    SelectorNode.tickFrom 0 [Except.ok BehaviorTreeStatus.Failure, .ok .Running]
      = .ok (.Running, 1) ∧
    RepeatNode.tickFrom 0 [Except.ok BehaviorTreeStatus.Success, .ok .Running]
      = .ok (.Running, 1) ∧
    UntilFailNode.tickFrom 0 [Except.ok BehaviorTreeStatus.Success, .ok .Running]
      = .ok (.Running, 1) :=
  ⟨C1_running_cursor_resumption.1 [.ok .Success] [] 0 (by decide),
   C1_running_cursor_resumption.2.1 [.ok .Failure] [] 0 (by decide),
   C1_running_cursor_resumption.2.2.1 [.ok .Success] [] 0 (by decide),
   C1_running_cursor_resumption.2.2.2.1 [.ok .Success] [] 0 (by decide)⟩

/-- Claim C2: a Sequence whose children all return Success in order returns
Success on that tick with the cursor reset to child 0; a Sequence whose
children return Success up to a child that returns Failure resets the cursor
and returns Failure. -/
theorem C2_sequence_success_failure :
    (∀ (results : ChildResults) (keepState : Bool), results ≠ [] →
      (∀ x ∈ results, x = .ok .Success) →
      SequenceNode.tick keepState results none = .ok (.Success, some 0)) ∧
    (∀ (pre rest : ChildResults) (keepState : Bool), (∀ x ∈ pre, x = .ok .Success) →
      SequenceNode.tick keepState (pre ++ .ok .Failure :: rest) none
        = .ok (.Failure, some 0)) := by
  constructor
  · intro results k hne h
    obtain ⟨r, rest, rfl⟩ := List.exists_cons_of_ne_nil hne
    have hr : r = .ok .Success := h r (List.mem_cons_self _ _)
    subst hr
    rw [seq_tick_none,
      seq_tickFrom_allSuccess rest 0 (fun x hx => h x (List.mem_cons_of_mem _ hx))]
    rfl
  · intro pre rest k h
    rw [seq_tick_none, seq_tickFrom_prefix_failure pre rest 0 h]
    rfl

/-- Witness for C2 at concrete inputs. -/
theorem C2_witness :
    SequenceNode.tick true [Except.ok BehaviorTreeStatus.Success, .ok .Success] none
      = .ok (.Success, some 0) ∧
    SequenceNode.tick true [Except.ok BehaviorTreeStatus.Success, .ok .Failure] none
      = .ok (.Failure, some 0) :=
  ⟨C2_sequence_success_failure.1 [.ok .Success, .ok .Success] true (by decide) (by decide),
   C2_sequence_success_failure.2 [.ok .Success] [] true (by decide)⟩

/-- Claim C3: a Selector tick tries the children in order and the first child
that does not return Failure decides: Success resets the cursor and returns
Success, Running is returned with the cursor left on that child; if all
children return Failure the cursor is reset and Failure returned. -/
theorem C3_selector_first_non_failure :
    (∀ (pre rest : ChildResults) (keepState : Bool), (∀ x ∈ pre, x = .ok .Failure) →
      SelectorNode.tick keepState (pre ++ .ok .Success :: rest) none
        = .ok (.Success, some 0)) ∧
    (∀ (pre rest : ChildResults) (keepState : Bool), (∀ x ∈ pre, x = .ok .Failure) →
      SelectorNode.tick keepState (pre ++ .ok .Running :: rest) none
        = .ok (.Running, some pre.length)) ∧
    (∀ (results : ChildResults) (keepState : Bool), results ≠ [] →
      (∀ x ∈ results, x = .ok .Failure) →
      SelectorNode.tick keepState results none = .ok (.Failure, some 0)) := by
  refine ⟨?_, ?_, ?_⟩
  · intro pre rest k h
    rw [sel_tick_none, sel_tickFrom_prefix_success pre rest 0 h]
    rfl
  · intro pre rest k h
    rw [sel_tick_none, sel_tickFrom_prefix_running pre rest 0 h]
    rw [Nat.zero_add]
    rfl
  · intro results k hne h
    obtain ⟨r, rest, rfl⟩ := List.exists_cons_of_ne_nil hne
    have hr : r = .ok .Failure := h r (List.mem_cons_self _ _)
    subst hr
    rw [sel_tick_none,
      sel_tickFrom_allFailure rest 0 (fun x hx => h x (List.mem_cons_of_mem _ hx))]
    rfl

/-- Witness for C3 at concrete inputs. -/
theorem C3_witness :
    SelectorNode.tick true [Except.ok BehaviorTreeStatus.Failure, .ok .Success] none
      = .ok (.Success, some 0) ∧
    SelectorNode.tick true [Except.ok BehaviorTreeStatus.Failure, .ok .Running] none
      = .ok (.Running, some 1) ∧
    SelectorNode.tick true [Except.ok BehaviorTreeStatus.Failure, .ok .Failure] none
      = .ok (.Failure, some 0) :=
  ⟨C3_selector_first_non_failure.1 [.ok .Failure] [] true (by decide),
   C3_selector_first_non_failure.2.1 [.ok .Failure] [] true (by decide),
   C3_selector_first_non_failure.2.2 [.ok .Failure, .ok .Failure] true (by decide) (by decide)⟩

/-- Claim C4 counterexample: an UntilFail node with two children whose first
child returns Running returns Running from the tick without having exhausted
the children with all Successes — so a tick can return Running without
exhausting all children, contradicting the claim's "returns Running only
after exhausting all children with all of them returning Success". -/
theorem C4_counterexample :
    UntilFailNode.tick true [Except.ok BehaviorTreeStatus.Running, .ok .Success] none
      = .ok (.Running, some 0) ∧
    ¬ (∀ x ∈ ([Except.ok BehaviorTreeStatus.Running, .ok .Success] : ChildResults),
        x = .ok .Success) := by
  constructor
  · decide
  · decide

/-- Claim C4 as amended: an UntilFail node with at least one child returns
Running with the cursor reset to the first child when it exhausts all
children with every child returning Success; it returns Failure with the
cursor reset the first time a child returns Failure; and when a child
returns Running before any Failure, the tick returns Running with the cursor
left on that child (not reset), without exhausting the remaining
children. -/
theorem C4_untilFail_characterization :
    (∀ (results : ChildResults) (keepState : Bool), results ≠ [] →
      (∀ x ∈ results, x = .ok .Success) →
      UntilFailNode.tick keepState results none = .ok (.Running, some 0)) ∧
    (∀ (pre rest : ChildResults) (keepState : Bool), (∀ x ∈ pre, x = .ok .Success) →
      UntilFailNode.tick keepState (pre ++ .ok .Failure :: rest) none
        = .ok (.Failure, some 0)) ∧
    (∀ (pre rest : ChildResults) (keepState : Bool), (∀ x ∈ pre, x = .ok .Success) →
      UntilFailNode.tick keepState (pre ++ .ok .Running :: rest) none
        = .ok (.Running, some pre.length)) := by
  refine ⟨?_, ?_, ?_⟩
  · intro results k hne h
    obtain ⟨r, rest, rfl⟩ := List.exists_cons_of_ne_nil hne
    have hr : r = .ok .Success := h r (List.mem_cons_self _ _)
    subst hr
    rw [uf_tick_none,
      uf_tickFrom_allSuccess rest 0 (fun x hx => h x (List.mem_cons_of_mem _ hx))]
    rfl
  · intro pre rest k h
    rw [uf_tick_none, uf_tickFrom_prefix_failure pre rest 0 h]
    rfl
  · intro pre rest k h
    rw [uf_tick_none, uf_tickFrom_prefix_running pre rest 0 h,
      Nat.zero_add]
    rfl

/-- Witness for the amended C4 at concrete inputs. -/
theorem C4_witness :
    UntilFailNode.tick true [Except.ok BehaviorTreeStatus.Success, .ok .Success] none
      = .ok (.Running, some 0) ∧
    UntilFailNode.tick true [Except.ok BehaviorTreeStatus.Success, .ok .Failure] none
      = .ok (.Failure, some 0) ∧
    UntilFailNode.tick true [Except.ok BehaviorTreeStatus.Success, .ok .Running] none
      = .ok (.Running, some 1) :=
  ⟨C4_untilFail_characterization.1 [.ok .Success, .ok .Success] true (by decide) (by decide),
   C4_untilFail_characterization.2.1 [.ok .Success] [] true (by decide),
   C4_untilFail_characterization.2.2 [.ok .Success] [] true (by decide)⟩

/-- Claim C5: a Repeat node's tick result is always Running, never Success or
Failure: any tick that returns normally returns Running (first conjunct),
and when no child throws the tick does return normally, with Running
(second conjunct). -/
theorem C5_repeat_always_running :
    (∀ (keepState : Bool) (results : ChildResults) (enum : Option Nat)
        (s : BehaviorTreeStatus) (cur : Option Nat),
      RepeatNode.tick keepState results enum = .ok (s, cur) → s = .Running) ∧
    (∀ (keepState : Bool) (results : ChildResults) (enum : Option Nat),
      (∀ x ∈ results, ∃ st, x = .ok st) →
      ∃ cur, RepeatNode.tick keepState results enum = .ok (.Running, cur)) := by
  constructor
  · intro k results enum s cur h
    rw [show RepeatNode.tick k results enum
        = (RepeatNode.tickFrom (startIndex k enum)
            (results.drop (startIndex k enum))).map (fun p => (p.1, some p.2)) from rfl] at h
    cases hres : RepeatNode.tickFrom (startIndex k enum) (results.drop (startIndex k enum)) with
    | error e =>
      rw [hres] at h
      exact absurd h (by simp [Except.map])
    | ok p =>
      obtain ⟨s', j'⟩ := p
      rw [hres] at h
      have h' : (Except.ok (s', some j') : Except JSError (BehaviorTreeStatus × Option Nat))
          = .ok (s, cur) := h
      injection h' with h1
      injection h1 with hA hB
      exact hA.symm.trans (rep_tickFrom_running _ _ s' j' hres)
  · intro k results enum h
    obtain ⟨j, hj⟩ := rep_tickFrom_noError (results.drop (startIndex k enum))
      (startIndex k enum) (fun x hx => h x (List.drop_subset _ _ hx))
    refine ⟨some j, ?_⟩
    rw [show RepeatNode.tick k results enum
        = (RepeatNode.tickFrom (startIndex k enum)
            (results.drop (startIndex k enum))).map (fun p => (p.1, some p.2)) from rfl, hj]
    rfl

/-- Witness for C5 at a concrete input: a Repeat over a failing child returns
Running. -/
theorem C5_witness :
    BehaviorTreeStatus.Running = .Running ∧
    ∃ cur, RepeatNode.tick true [Except.ok BehaviorTreeStatus.Failure] none
      = .ok (.Running, cur) :=
  ⟨C5_repeat_always_running.1 true [.ok .Failure] none .Running (some 0) (by decide),
   C5_repeat_always_running.2 true [.ok .Failure] none
     (fun x hx => ⟨.Failure, by simpa using hx⟩)⟩

/-- Claim C6: a Parallel tick counts the Success and Failure votes over all
children (every child contributes exactly one vote via `tickChildren`) and
returns Success exactly when `requiredToSucceed > 0` and the successes reach
that threshold; Failure exactly when success did not win and
`requiredToFail > 0` and the failures reach that threshold; Running exactly
when neither fires — so success is checked before failure and a threshold of
0 disables that outcome. -/
theorem C6_parallel_thresholds :
    ∀ (requiredToFail requiredToSucceed : Int) (children : ChildResults),
      (children.map ParallelNode.tickChildren).length = children.length ∧
      (ParallelNode.tick requiredToFail requiredToSucceed children = .Success ↔
        requiredToSucceed > 0 ∧ requiredToSucceed
          ≤ ((children.map ParallelNode.tickChildren).count .Success : Int)) ∧
      (ParallelNode.tick requiredToFail requiredToSucceed children = .Failure ↔
        ¬ (requiredToSucceed > 0 ∧ requiredToSucceed
            ≤ ((children.map ParallelNode.tickChildren).count .Success : Int)) ∧
          requiredToFail > 0 ∧ requiredToFail
            ≤ ((children.map ParallelNode.tickChildren).count .Failure : Int)) ∧
      (ParallelNode.tick requiredToFail requiredToSucceed children = .Running ↔
        ¬ (requiredToSucceed > 0 ∧ requiredToSucceed
            ≤ ((children.map ParallelNode.tickChildren).count .Success : Int)) ∧
          ¬ (requiredToFail > 0 ∧ requiredToFail
            ≤ ((children.map ParallelNode.tickChildren).count .Failure : Int))) := by
  intro rtf rts children
  refine ⟨List.length_map _ _, ?_, ?_, ?_⟩ <;>
  · simp only [ParallelNode.tick,
      listCount_filter (children.map ParallelNode.tickChildren) .Success,
      listCount_filter (children.map ParallelNode.tickChildren) .Failure]
    split_ifs with h1 h2 <;> simp_all

/-- Witness for C6 at concrete inputs: one succeeding child meets a success
threshold of 1, and a failure threshold of 0 leaves a failing child's tick
Running. -/
theorem C6_witness :
    ParallelNode.tick 0 1 [Except.ok BehaviorTreeStatus.Success] = .Success ∧
    ParallelNode.tick 0 1 [Except.ok BehaviorTreeStatus.Failure] = .Running :=
  ⟨(C6_parallel_thresholds 0 1 [.ok .Success]).2.1.mpr (by decide),
   (C6_parallel_thresholds 0 1 [.ok .Failure]).2.2.2.mpr (by decide)⟩

/-- Claim C7: a child that throws under Parallel is contained and counted as
a Failure vote (conjuncts 1-2: `tickChildren` maps the thrown error to
Failure, and the overall tick is the same as if the child had returned
Failure); a child that throws while being evaluated under Sequence,
Selector, Repeat, UntilFail or Inverter propagates its error unmodified to
the composite's caller (conjuncts 3-7). -/
theorem C7_error_containment_propagation :
    (∀ e : JSError, ParallelNode.tickChildren (.error e) = .Failure) ∧
    (∀ (requiredToFail requiredToSucceed : Int) (pre post : ChildResults) (e : JSError),
      ParallelNode.tick requiredToFail requiredToSucceed (pre ++ .error e :: post)
        = ParallelNode.tick requiredToFail requiredToSucceed (pre ++ .ok .Failure :: post)) ∧
    (∀ (pre rest : ChildResults) (e : JSError) (keepState : Bool),
      (∀ x ∈ pre, x = .ok .Success) →
      SequenceNode.tick keepState (pre ++ .error e :: rest) none = .error e) ∧
    (∀ (pre rest : ChildResults) (e : JSError) (keepState : Bool),
      (∀ x ∈ pre, x = .ok .Failure) →
      SelectorNode.tick keepState (pre ++ .error e :: rest) none = .error e) ∧
    (∀ (pre rest : ChildResults) (e : JSError) (keepState : Bool),
      (∀ x ∈ pre, x = .ok .Success) →
      RepeatNode.tick keepState (pre ++ .error e :: rest) none = .error e) ∧
    (∀ (pre rest : ChildResults) (e : JSError) (keepState : Bool),
      (∀ x ∈ pre, x = .ok .Success) →
      UntilFailNode.tick keepState (pre ++ .error e :: rest) none = .error e) ∧
    (∀ e : JSError, InverterNode.tick (some (.error e)) = .error e) := by
  refine ⟨fun e => rfl, ?_, ?_, ?_, ?_, ?_, fun e => rfl⟩
  · intro rtf rts pre post e
    simp [ParallelNode.tick, ParallelNode.tickChildren]
  · intro pre rest e k h
    rw [seq_tick_none, seq_tickFrom_prefix_error pre rest e 0 h]
    rfl
  · intro pre rest e k h
    rw [sel_tick_none, sel_tickFrom_prefix_error pre rest e 0 h]
    rfl
  · intro pre rest e k h
    rw [rep_tick_none, rep_tickFrom_prefix_error pre rest e 0 h]
    rfl
  · intro pre rest e k h
    rw [uf_tick_none, uf_tickFrom_prefix_error pre rest e 0 h]
    rfl

/-- Witness for C7 at concrete inputs. -/
theorem C7_witness :
    ParallelNode.tickChildren (.error (.thrown 7)) = .Failure ∧
    SequenceNode.tick true [Except.error (JSError.thrown 3)] none = .error (.thrown 3) ∧
    SelectorNode.tick true [Except.error (JSError.thrown 4)] none = .error (.thrown 4) ∧
    RepeatNode.tick true [Except.error (JSError.thrown 5)] none = .error (.thrown 5) ∧
    UntilFailNode.tick true [Except.error (JSError.thrown 6)] none = .error (.thrown 6) :=
  ⟨C7_error_containment_propagation.1 (.thrown 7),
   C7_error_containment_propagation.2.2.1 [] [] (.thrown 3) true (by decide),
   C7_error_containment_propagation.2.2.2.1 [] [] (.thrown 4) true (by decide),
   C7_error_containment_propagation.2.2.2.2.1 [] [] (.thrown 5) true (by decide),
   C7_error_containment_propagation.2.2.2.2.2.1 [] [] (.thrown 6) true (by decide)⟩

/-- Claim C8: the builder chain `sequence("s"), do("a", fnA), do("b", fnB),
end(), build()` returns a Sequence node named "s" whose children are exactly
the two Action nodes "a" and "b" in that order (conjunct 1); and `build()`
throws the "no nodes" error whenever no node has ever been passed through
`end()` — `curNode` is unset on a fresh builder, every builder operation
other than `end()` leaves it unchanged, and `build()` on an unset `curNode`
throws `NO_NODES` (remaining conjuncts). -/
theorem C8_builder_roundtrip :
    (∀ (fnA fnB : Nat),
      ((BehaviorTreeBuilder.fresh.sequence "s" none).doAction "a" fnA
          >>= BehaviorTreeBuilder.doAction "b" fnB
          >>= BehaviorTreeBuilder.endB
          >>= BehaviorTreeBuilder.build)
        = .ok (.sequenceNode "s" true [.actionNode "a" fnA, .actionNode "b" fnB])) ∧
    (∀ b : BehaviorTreeBuilder, b.curNode = none →
      b.build = .error (.behaviorTreeError Errors.NO_NODES)) ∧
    BehaviorTreeBuilder.fresh.curNode = none ∧
    (∀ (b : BehaviorTreeBuilder) (name : String) (fn : Nat) (b' : BehaviorTreeBuilder),
      BehaviorTreeBuilder.doAction name fn b = .ok b' → b'.curNode = b.curNode) ∧
    (∀ (b : BehaviorTreeBuilder) (name : String) (ks : Option Bool),
      (b.sequence name ks).curNode = b.curNode ∧
      (b.selector name ks).curNode = b.curNode ∧
      (b.selectorSrc name ks).curNode = b.curNode ∧
      (b.repeatB name ks).curNode = b.curNode ∧
      (b.untilFail name ks).curNode = b.curNode) ∧
    (∀ (b : BehaviorTreeBuilder) (name : String) (rtf rts : Int),
      (b.parallel name rtf rts).curNode = b.curNode) ∧
    (∀ (b : BehaviorTreeBuilder) (name : String),
      (b.inverter name).curNode = b.curNode) ∧
    (∀ (b : BehaviorTreeBuilder) (sub : BTNode) (b' : BehaviorTreeBuilder),
      BehaviorTreeBuilder.splice sub b = .ok b' → b'.curNode = b.curNode) := by
  refine ⟨fun fnA fnB => rfl, ?_, rfl, ?_, fun b name ks => ⟨rfl, rfl, rfl, rfl, rfl⟩,
    fun b name rtf rts => rfl, fun b name => rfl, ?_⟩
  · intro b h
    unfold BehaviorTreeBuilder.build
    rw [h]
  · intro b name fn b' h
    unfold BehaviorTreeBuilder.doAction at h
    split at h
    · exact absurd h (by simp)
    · split at h
      · exact absurd h (by simp)
      · injection h with h2
        rw [← h2]
  · intro b sub b' h
    unfold BehaviorTreeBuilder.splice at h
    split at h
    · exact absurd h (by simp)
    · split at h
      · exact absurd h (by simp)
      · injection h with h2
        rw [← h2]

/-- Witness for C8 at concrete inputs: the round-trip with action tags 0 and
1, and `build()` on a fresh builder failing with the NO_NODES error. -/
theorem C8_witness :
    ((BehaviorTreeBuilder.fresh.sequence "s" none).doAction "a" 0
        >>= BehaviorTreeBuilder.doAction "b" 1
        >>= BehaviorTreeBuilder.endB
        >>= BehaviorTreeBuilder.build)
      = .ok (.sequenceNode "s" true [.actionNode "a" 0, .actionNode "b" 1]) ∧
    BehaviorTreeBuilder.fresh.build = .error (.behaviorTreeError Errors.NO_NODES) :=
  ⟨C8_builder_roundtrip.1 0 1, C8_builder_roundtrip.2.1 BehaviorTreeBuilder.fresh rfl⟩

/-- Claim C9 counterexample: constructing a SequenceNode without passing
`keepState` yields `keepState = false`, not `true` — the node constructors
default `keepState` to `false` (bundle.js line 294), so the claim fails on
the constructor path. -/
theorem C9_counterexample :
    BTNode.keepState (SequenceNode.new "s" none) ≠ some true := by
  decide

/-- Claim C9 as amended: constructing Sequence, Selector, Repeat or UntilFail
via the node constructor without passing `keepState` yields
`keepState = false` (the constructors default to `false`); the bundled
builder methods `sequence`, `selector`, `repeat` and `untilFail` without
`keepState` produce a node with `keepState = true` (their default is
`true`); the unbundled builder source's `selector` declares no default and
passes the argument through, so omitting it there yields the constructor's
`false`. -/
theorem C9_keepState_defaults :
    ∀ name : String,
      SequenceNode.new name none = .sequenceNode name false [] ∧
      SelectorNode.new name none = .selectorNode name false [] ∧
      RepeatNode.new name none = .repeatNode name false [] ∧
      UntilFailNode.new name none = .untilFailNode name false [] ∧
      ((BehaviorTreeBuilder.fresh.sequence name none).endB >>= BehaviorTreeBuilder.build)
        = .ok (.sequenceNode name true []) ∧
      ((BehaviorTreeBuilder.fresh.selector name none).endB >>= BehaviorTreeBuilder.build)
        = .ok (.selectorNode name true []) ∧
      ((BehaviorTreeBuilder.fresh.repeatB name none).endB >>= BehaviorTreeBuilder.build)
        = .ok (.repeatNode name true []) ∧
      ((BehaviorTreeBuilder.fresh.untilFail name none).endB >>= BehaviorTreeBuilder.build)
        = .ok (.untilFailNode name true []) ∧
      ((BehaviorTreeBuilder.fresh.selectorSrc name none).endB >>= BehaviorTreeBuilder.build)
        = .ok (.selectorNode name false []) :=
  fun _ => ⟨rfl, rfl, rfl, rfl, rfl, rfl, rfl, rfl, rfl⟩

/-- Witness for the amended C9 at a concrete name. -/
theorem C9_witness :
    SequenceNode.new "x" none = .sequenceNode "x" false [] :=
  (C9_keepState_defaults "x").1

/-- Claim C10: a Sequence, Selector, Repeat or UntilFail node with zero
children returns Running from every tick — never Success or Failure —
whatever `keepState` and the stored cursor are. -/
theorem C10_zero_children_running :
    ∀ (keepState : Bool) (enum : Option Nat),
      (SequenceNode.tick keepState [] enum).map Prod.fst = .ok .Running ∧
      (SelectorNode.tick keepState [] enum).map Prod.fst = .ok .Running ∧
      (RepeatNode.tick keepState [] enum).map Prod.fst = .ok .Running ∧
      (UntilFailNode.tick keepState [] enum).map Prod.fst = .ok .Running := by
  intro k enum
  rw [seq_tick_nil, sel_tick_nil, rep_tick_nil, uf_tick_nil]
  exact ⟨rfl, rfl, rfl, rfl⟩

/-- Witness for C10 at a concrete flag and cursor. -/
theorem C10_witness :
    (SequenceNode.tick true [] (some 3)).map Prod.fst = .ok .Running :=
  (C10_zero_children_running true (some 3)).1

end BehaviorTreeJs
